import Mathlib

/-!
Verification of the eia-renewable-dashboard data-retrieval and analytics core.

The development shallowly embeds the Python source:
* `Pagination` — `paginate` (src/eia_client/utils/pagination.py) and
  `get_all_data` (src/eia_client/client.py), run against a synthetic
  offset/limit record source;
* `Retry` — `_handle_response` / `_request` retry-with-backoff loop
  (src/eia_client/client.py);
* `Query` — the query-pair construction of `get_data`
  (src/eia_client/client.py);
* `Models` — the record mappers `FuelTypeData.from_dict` and
  `GeneratorCapacity.from_dict` (src/eia_client/models/renewable.py),
  over a loose Python-value embedding with explicit truthiness and
  fallible `float`/`int` conversion;
* `Geo` — `point_in_polygon` and the bounding-box prefilter
  (src/backend/main.py), over exact rational coordinates.

Python code that can raise is embedded with `Option` results; machine
floats are modelled as exact rationals.
-/

set_option maxHeartbeats 1000000

namespace Pagination

variable {α : Type*}

/-- The page a finite mock record source serves at a given offset and limit:
`src[offset : offset + limit]`, with `total = len(src)`. -/
def pageOf (src : List α) (offset limit : Nat) : List α :=
  (src.drop offset).take limit

/-- Python `if max_records and total_fetched >= max_records:` —
`max_records` participates by truthiness (`None` and `0` both mean no cap). -/
def capHit (maxRecords : Option Nat) (totalFetched : Nat) : Bool :=
  match maxRecords with
  | Option.none => false
  | some m => decide (m ≠ 0) && decide (m ≤ totalFetched)

/-- The inner `for record in data:` loop shared by `paginate` and
`get_all_data`: emits records one by one, incrementing `total_fetched`,
and returns early as soon as the cap is reached.  Result:
(emitted records, new `total_fetched`, returned-early flag). -/
def emitLoop (maxRecords : Option Nat) : List α → Nat → List α × Nat × Bool
  | [], tf => ([], tf, false)
  | x :: rest, tf =>
    if capHit maxRecords (tf + 1) then ([x], tf + 1, true)
    else
      let r := emitLoop maxRecords rest (tf + 1)
      (x :: r.1, r.2.1, r.2.2)

/-- The `while True:` loop of `paginate` (src/eia_client/utils/pagination.py),
for a raw-dict response source: `data = src[offset : offset + page_size]`,
`total = len(src)`, `has_more = offset + len(data) < total`.  The loop body
is structural on `fuel`; `paginate` supplies enough fuel for the loop to
run to its own termination.  Result: (yielded records, page requests made). -/
def paginateGo (src : List α) (pageSize : Nat) (maxRecords : Option Nat) :
    Nat → Nat → Nat → Nat → List α × Nat
  | 0, _, _, reqs => ([], reqs)
  | fuel + 1, offset, tf, reqs =>
    let data := pageOf src offset pageSize
    if data.isEmpty then ([], reqs + 1)
    else
      let e := emitLoop maxRecords data tf
      if e.2.2 then (e.1, reqs + 1)
      else
        let hasMore := decide (offset + data.length < src.length)
        if !hasMore || decide (data.length < pageSize) then (e.1, reqs + 1)
        else
          let rest := paginateGo src pageSize maxRecords fuel (offset + data.length) e.2.1 (reqs + 1)
          (e.1 ++ rest.1, rest.2)

/-- `paginate(fetch_func, page_size, max_records)` against the mock source. -/
def paginate (src : List α) (pageSize : Nat) (maxRecords : Option Nat) : List α × Nat :=
  paginateGo src pageSize maxRecords (src.length + 1) 0 0 0

/-- The `while True:` loop of `EIAClient.get_all_data`
(src/eia_client/client.py): identical record emission, but no `has_more`
check — it stops only on an empty page or a short page. -/
def getAllDataGo (src : List α) (pageSize : Nat) (maxRecords : Option Nat) :
    Nat → Nat → Nat → Nat → List α × Nat
  | 0, _, _, reqs => ([], reqs)
  | fuel + 1, offset, tf, reqs =>
    let data := pageOf src offset pageSize
    if data.isEmpty then ([], reqs + 1)
    else
      let e := emitLoop maxRecords data tf
      if e.2.2 then (e.1, reqs + 1)
      else
        if decide (data.length < pageSize) then (e.1, reqs + 1)
        else
          let rest := getAllDataGo src pageSize maxRecords fuel (offset + data.length) e.2.1 (reqs + 1)
          (e.1 ++ rest.1, rest.2)

/-- `EIAClient.get_all_data` against the mock source. -/
def getAllData (src : List α) (pageSize : Nat) (maxRecords : Option Nat) : List α × Nat :=
  getAllDataGo src pageSize maxRecords (src.length + 2) 0 0 0

/-- `min(total available, max_records)` with an absent cap meaning no cap. -/
def capRecords (maxRecords : Option Nat) (total : Nat) : Nat :=
  match maxRecords with
  | Option.none => total
  | some m => min m total

/-- With no active cap the emit loop emits the whole page. -/
theorem emitLoop_none (data : List α) (tf : Nat) :
    emitLoop Option.none data tf = (data, tf + data.length, false) := by
  induction data generalizing tf with
  | nil => simp [emitLoop]
  | cons x rest ih =>
    simp [emitLoop, capHit, ih (tf + 1)]
    omega

/-- With cap `m` still strictly beyond the end of the page, the emit loop
emits the whole page and does not return early. -/
theorem emitLoop_below (m : Nat) (data : List α) (tf : Nat)
    (h : tf + data.length < m) :
    emitLoop (some m) data tf = (data, tf + data.length, false) := by
  induction data generalizing tf with
  | nil => simp [emitLoop]
  | cons x rest ih =>
    have hx : capHit (some m) (tf + 1) = false := by
      simp only [capHit, Bool.and_eq_false_iff, decide_eq_false_iff_not]
      right
      simp only [List.length_cons] at h
      omega
    have hrest := ih (tf + 1) (by simp only [List.length_cons] at h; omega)
    simp [emitLoop, hx, hrest]
    omega

/-- With a positive cap `m` reached inside the page, the emit loop emits
exactly the first `m - tf` records and returns early. -/
theorem emitLoop_hit (m : Nat) (data : List α) (tf : Nat)
    (hm : 0 < m) (hlo : tf < m) (hhi : m ≤ tf + data.length) :
    emitLoop (some m) data tf = (data.take (m - tf), m, true) := by
  induction data generalizing tf with
  | nil => simp only [List.length_nil, Nat.add_zero] at hhi; omega
  | cons x rest ih =>
    by_cases hstop : m ≤ tf + 1
    · have hx : capHit (some m) (tf + 1) = true := by
        simp only [capHit, Bool.and_eq_true, decide_eq_true_eq]
        omega
      have hmtf : m - tf = 1 := by omega
      have hmeq : tf + 1 = m := by omega
      rw [show emitLoop (some m) (x :: rest) tf =
            if capHit (some m) (tf + 1) then ([x], tf + 1, true)
            else
              let r := emitLoop (some m) rest (tf + 1)
              (x :: r.1, r.2.1, r.2.2) from rfl,
          if_pos hx, hmtf, hmeq]
      simp
    · have hx : capHit (some m) (tf + 1) = false := by
        simp only [capHit, Bool.and_eq_false_iff, decide_eq_false_iff_not]
        right
        omega
      have hrest := ih (tf + 1) (by omega) (by simp only [List.length_cons] at hhi; omega)
      have htake : m - tf = (m - (tf + 1)) + 1 := by omega
      simp [emitLoop, hx, hrest, htake]

/-- `paginate` loop, active cap `m` not yet reached: from offset `offset`
with `total_fetched = tf` it yields the next `m - tf` records of the source. -/
theorem paginateGo_some_spec (src : List α) (ps m : Nat) (hps : 0 < ps) (hm : 0 < m) :
    ∀ fuel offset tf reqs, tf < m → src.length + 1 - offset ≤ fuel →
      (paginateGo src ps (some m) fuel offset tf reqs).1 = (src.drop offset).take (m - tf) := by
  intro fuel
  induction fuel with
  | zero =>
    intro offset tf reqs htf hfuel
    have : src.drop offset = [] := List.drop_eq_nil_of_le (by omega)
    simp [paginateGo, this]
  | succ fuel ih =>
    intro offset tf reqs htf hfuel
    by_cases hemp : (pageOf src offset ps).isEmpty
    · have hnil : src.drop offset = [] := by
        rcases List.take_eq_nil_iff.mp (List.isEmpty_iff.mp hemp) with h | h
        · omega
        · exact h
      simp [paginateGo, hemp, hnil]
    · have hlen_le : (pageOf src offset ps).length ≤ ps := by
        simp [pageOf]
      by_cases hhit : m ≤ tf + (pageOf src offset ps).length
      · have he := emitLoop_hit m (pageOf src offset ps) tf hm htf hhit
        have htk : (pageOf src offset ps).take (m - tf) = (src.drop offset).take (m - tf) := by
          simp only [pageOf, List.take_take]
          congr 1
          omega
        simp [paginateGo, hemp, he, htk]
      · have he := emitLoop_below m (pageOf src offset ps) tf (by omega)
        by_cases hshort : (!decide (offset + (pageOf src offset ps).length < src.length)
            || decide ((pageOf src offset ps).length < ps)) = true
        · have hdata : pageOf src offset ps = src.drop offset := by
            rcases Bool.or_eq_true_iff.mp hshort with h | h
            · have hge : ¬ offset + (pageOf src offset ps).length < src.length := by
                simpa using h
              simp only [pageOf, List.length_take, List.length_drop] at hge ⊢
              exact List.take_of_length_le (by simp only [List.length_drop]; omega)
            · have hlt : (pageOf src offset ps).length < ps := by simpa using h
              simp only [pageOf, List.length_take, List.length_drop] at hlt ⊢
              exact List.take_of_length_le (by simp only [List.length_drop]; omega)
          have hrhs : (src.drop offset).take (m - tf) = src.drop offset := by
            apply List.take_of_length_le
            rw [← hdata]
            omega
          simp only [paginateGo]
          rw [if_neg hemp]
          simp only [he]
          rw [if_neg (by simp)]
          rw [if_pos hshort]
          rw [hdata, hrhs]
        · have hmore : offset + (pageOf src offset ps).length < src.length := by
            by_contra h
            exact hshort (by simp only [Bool.or_eq_true, Bool.not_eq_true',
              decide_eq_false_iff_not, decide_eq_true_eq]; exact Or.inl h)
          have hnotlt : ¬ (pageOf src offset ps).length < ps := by
            intro h
            exact hshort (by simp only [Bool.or_eq_true, decide_eq_true_eq]; exact Or.inr h)
          have hfull : (pageOf src offset ps).length = ps := by omega
          have hrec := ih (offset + (pageOf src offset ps).length) (tf + (pageOf src offset ps).length)
            (reqs + 1) (by omega) (by omega)
          have hsplit : (src.drop offset).take (m - tf)
              = pageOf src offset ps ++ (src.drop (offset + ps)).take (m - (tf + ps)) := by
            have hmtf : m - tf = ps + (m - (tf + ps)) := by omega
            rw [hmtf, List.take_add, List.drop_drop]
            rfl
          simp only [paginateGo]
          rw [if_neg hemp]
          simp only [he]
          rw [if_neg (by simp)]
          rw [if_neg hshort]
          simp only [hfull] at hrec ⊢
          rw [hrec, hsplit]

/-- `paginate` loop, no cap: from offset `offset` it yields the whole rest
of the source. -/
theorem paginateGo_none_spec (src : List α) (ps : Nat) (hps : 0 < ps) :
    ∀ fuel offset tf reqs, src.length + 1 - offset ≤ fuel →
      (paginateGo src ps Option.none fuel offset tf reqs).1 = src.drop offset := by
  intro fuel
  induction fuel with
  | zero =>
    intro offset tf reqs hfuel
    have : src.drop offset = [] := List.drop_eq_nil_of_le (by omega)
    simp [paginateGo, this]
  | succ fuel ih =>
    intro offset tf reqs hfuel
    by_cases hemp : (pageOf src offset ps).isEmpty
    · have hnil : src.drop offset = [] := by
        rcases List.take_eq_nil_iff.mp (List.isEmpty_iff.mp hemp) with h | h
        · omega
        · exact h
      simp [paginateGo, hemp, hnil]
    · have hlen_le : (pageOf src offset ps).length ≤ ps := by
        simp [pageOf]
      have he := emitLoop_none (α := α) (pageOf src offset ps) tf
      by_cases hshort : (!decide (offset + (pageOf src offset ps).length < src.length)
          || decide ((pageOf src offset ps).length < ps)) = true
      · have hdata : pageOf src offset ps = src.drop offset := by
          rcases Bool.or_eq_true_iff.mp hshort with h | h
          · have hge : ¬ offset + (pageOf src offset ps).length < src.length := by
              simpa using h
            simp only [pageOf, List.length_take, List.length_drop] at hge ⊢
            exact List.take_of_length_le (by simp only [List.length_drop]; omega)
          · have hlt : (pageOf src offset ps).length < ps := by simpa using h
            simp only [pageOf, List.length_take, List.length_drop] at hlt ⊢
            exact List.take_of_length_le (by simp only [List.length_drop]; omega)
        simp only [paginateGo]
        rw [if_neg hemp]
        simp only [he]
        rw [if_neg (by simp)]
        rw [if_pos hshort]
        rw [hdata]
      · have hmore : offset + (pageOf src offset ps).length < src.length := by
          by_contra h
          exact hshort (by simp only [Bool.or_eq_true, Bool.not_eq_true',
            decide_eq_false_iff_not, decide_eq_true_eq]; exact Or.inl h)
        have hnotlt : ¬ (pageOf src offset ps).length < ps := by
          intro h
          exact hshort (by simp only [Bool.or_eq_true, decide_eq_true_eq]; exact Or.inr h)
        have hfull : (pageOf src offset ps).length = ps := by omega
        have hrec := ih (offset + (pageOf src offset ps).length) (tf + (pageOf src offset ps).length)
          (reqs + 1) (by omega)
        have hsplit : src.drop offset = pageOf src offset ps ++ src.drop (offset + ps) := by
          conv_lhs => rw [← List.take_append_drop ps (src.drop offset)]
          rw [List.drop_drop]
          rfl
        simp only [paginateGo]
        rw [if_neg hemp]
        simp only [he]
        rw [if_neg (by simp)]
        rw [if_neg hshort]
        simp only [hfull] at hrec ⊢
        rw [hrec, hsplit]

/-- `get_all_data` loop, active cap `m` not yet reached. -/
theorem getAllDataGo_some_spec (src : List α) (ps m : Nat) (hps : 0 < ps) (hm : 0 < m) :
    ∀ fuel offset tf reqs, tf < m → src.length + 2 - offset ≤ fuel →
      (getAllDataGo src ps (some m) fuel offset tf reqs).1 = (src.drop offset).take (m - tf) := by
  intro fuel
  induction fuel with
  | zero =>
    intro offset tf reqs htf hfuel
    have : src.drop offset = [] := List.drop_eq_nil_of_le (by omega)
    simp [getAllDataGo, this]
  | succ fuel ih =>
    intro offset tf reqs htf hfuel
    by_cases hemp : (pageOf src offset ps).isEmpty
    · have hnil : src.drop offset = [] := by
        rcases List.take_eq_nil_iff.mp (List.isEmpty_iff.mp hemp) with h | h
        · omega
        · exact h
      simp [getAllDataGo, hemp, hnil]
    · have hlen_le : (pageOf src offset ps).length ≤ ps := by
        simp [pageOf]
      by_cases hhit : m ≤ tf + (pageOf src offset ps).length
      · have he := emitLoop_hit m (pageOf src offset ps) tf hm htf hhit
        have htk : (pageOf src offset ps).take (m - tf) = (src.drop offset).take (m - tf) := by
          simp only [pageOf, List.take_take]
          congr 1
          omega
        simp [getAllDataGo, hemp, he, htk]
      · have he := emitLoop_below m (pageOf src offset ps) tf (by omega)
        by_cases hshort : decide ((pageOf src offset ps).length < ps) = true
        · have hlt : (pageOf src offset ps).length < ps := by simpa using hshort
          have hdata : pageOf src offset ps = src.drop offset := by
            simp only [pageOf, List.length_take, List.length_drop] at hlt ⊢
            exact List.take_of_length_le (by simp only [List.length_drop]; omega)
          have hrhs : (src.drop offset).take (m - tf) = src.drop offset := by
            apply List.take_of_length_le
            rw [← hdata]
            omega
          simp only [getAllDataGo]
          rw [if_neg hemp]
          simp only [he]
          rw [if_neg (by simp)]
          rw [if_pos hshort]
          rw [hdata, hrhs]
        · have hnotlt : ¬ (pageOf src offset ps).length < ps := by simpa using hshort
          have hfull : (pageOf src offset ps).length = ps := by omega
          have hrec := ih (offset + (pageOf src offset ps).length) (tf + (pageOf src offset ps).length)
            (reqs + 1) (by omega) (by omega)
          have hsplit : (src.drop offset).take (m - tf)
              = pageOf src offset ps ++ (src.drop (offset + ps)).take (m - (tf + ps)) := by
            have hmtf : m - tf = ps + (m - (tf + ps)) := by omega
            rw [hmtf, List.take_add, List.drop_drop]
            rfl
          simp only [getAllDataGo]
          rw [if_neg hemp]
          simp only [he]
          rw [if_neg (by simp)]
          rw [if_neg hshort]
          simp only [hfull] at hrec ⊢
          rw [hrec, hsplit]

/-- `get_all_data` loop, no cap. -/
theorem getAllDataGo_none_spec (src : List α) (ps : Nat) (hps : 0 < ps) :
    ∀ fuel offset tf reqs, src.length + 2 - offset ≤ fuel →
      (getAllDataGo src ps Option.none fuel offset tf reqs).1 = src.drop offset := by
  intro fuel
  induction fuel with
  | zero =>
    intro offset tf reqs hfuel
    have : src.drop offset = [] := List.drop_eq_nil_of_le (by omega)
    simp [getAllDataGo, this]
  | succ fuel ih =>
    intro offset tf reqs hfuel
    by_cases hemp : (pageOf src offset ps).isEmpty
    · have hnil : src.drop offset = [] := by
        rcases List.take_eq_nil_iff.mp (List.isEmpty_iff.mp hemp) with h | h
        · omega
        · exact h
      simp [getAllDataGo, hemp, hnil]
    · have hlen_le : (pageOf src offset ps).length ≤ ps := by
        simp [pageOf]
      have he := emitLoop_none (α := α) (pageOf src offset ps) tf
      by_cases hshort : decide ((pageOf src offset ps).length < ps) = true
      · have hlt : (pageOf src offset ps).length < ps := by simpa using hshort
        have hdata : pageOf src offset ps = src.drop offset := by
          simp only [pageOf, List.length_take, List.length_drop] at hlt ⊢
          exact List.take_of_length_le (by simp only [List.length_drop]; omega)
        simp only [getAllDataGo]
        rw [if_neg hemp]
        simp only [he]
        rw [if_neg (by simp)]
        rw [if_pos hshort]
        rw [hdata]
      · have hnotlt : ¬ (pageOf src offset ps).length < ps := by simpa using hshort
        have hfull : (pageOf src offset ps).length = ps := by omega
        have hrec := ih (offset + (pageOf src offset ps).length) (tf + (pageOf src offset ps).length)
          (reqs + 1) (by omega)
        have hsplit : src.drop offset = pageOf src offset ps ++ src.drop (offset + ps) := by
          conv_lhs => rw [← List.take_append_drop ps (src.drop offset)]
          rw [List.drop_drop]
          rfl
        simp only [getAllDataGo]
        rw [if_neg hemp]
        simp only [he]
        rw [if_neg (by simp)]
        rw [if_neg hshort]
        simp only [hfull] at hrec ⊢
        rw [hrec, hsplit]
/-- Auxiliary: taking `min m (length l)` elements is the same as taking `m`. -/
theorem take_min_length (l : List α) (m : Nat) : l.take (min m l.length) = l.take m := by
  by_cases h : m ≤ l.length
  · rw [Nat.min_eq_left h]
  · rw [Nat.min_eq_right (by omega), List.take_length, List.take_of_length_le (by omega)]

/-- C1: against every finite mock source, for every positive page size and
every positive-or-absent record cap, both `paginate` and `get_all_data`
yield exactly the first `min(total available, max_records)` records — in
page order, with no duplicates and no omissions; concretely, with
`page_size = 2` and `max_records = 5` against a 7-record source both yield
exactly 5 records in 3 page requests. -/
theorem fetch_all_min_cap {α : Type} (src : List α) (ps : Nat) (hps : 0 < ps)
    (maxRecords : Option Nat) (hm : ∀ m, maxRecords = some m → 0 < m) :
    (paginate src ps maxRecords).1 = src.take (capRecords maxRecords src.length)
    ∧ (paginate src ps maxRecords).1.length = capRecords maxRecords src.length
    ∧ (getAllData src ps maxRecords).1 = src.take (capRecords maxRecords src.length)
    ∧ paginate (List.range 7) 2 (some 5) = (List.range 5, 3)
    ∧ getAllData (List.range 7) 2 (some 5) = (List.range 5, 3) := by
  have hmain : (paginate src ps maxRecords).1 = src.take (capRecords maxRecords src.length)
      ∧ (getAllData src ps maxRecords).1 = src.take (capRecords maxRecords src.length) := by
    cases maxRecords with
    | none =>
      constructor
      · rw [paginate, paginateGo_none_spec src ps hps (src.length + 1) 0 0 0 (by omega)]
        simp [capRecords]
      · rw [getAllData, getAllDataGo_none_spec src ps hps (src.length + 2) 0 0 0 (by omega)]
        simp [capRecords]
    | some m =>
      have hm0 : 0 < m := hm m rfl
      constructor
      · rw [paginate,
          paginateGo_some_spec src ps m hps hm0 (src.length + 1) 0 0 0 (by omega) (by omega)]
        simp only [List.drop_zero, Nat.sub_zero, capRecords]
        rw [take_min_length]
      · rw [getAllData,
          getAllDataGo_some_spec src ps m hps hm0 (src.length + 2) 0 0 0 (by omega) (by omega)]
        simp only [List.drop_zero, Nat.sub_zero, capRecords]
        rw [take_min_length]
  refine ⟨hmain.1, ?_, hmain.2, by decide, by decide⟩
  rw [hmain.1, List.length_take]
  cases maxRecords with
  | none => simp [capRecords]
  | some m => simp [capRecords, Nat.min_assoc]

/-- Closed witness for `fetch_all_min_cap`. -/
theorem fetch_all_min_cap_witness :
    (paginate ([10, 20, 30] : List Nat) 2 Option.none).1
        = [10, 20, 30].take (capRecords Option.none ([10, 20, 30] : List Nat).length)
    ∧ (paginate ([10, 20, 30] : List Nat) 2 Option.none).1.length
        = capRecords Option.none ([10, 20, 30] : List Nat).length
    ∧ (getAllData ([10, 20, 30] : List Nat) 2 Option.none).1
        = [10, 20, 30].take (capRecords Option.none ([10, 20, 30] : List Nat).length)
    ∧ paginate (List.range 7) 2 (some 5) = (List.range 5, 3)
    ∧ getAllData (List.range 7) 2 (some 5) = (List.range 5, 3) :=
  fetch_all_min_cap [10, 20, 30] 2 (by decide) Option.none (fun m h => nomatch h)

end Pagination

namespace Retry

/-- Outcome of one attempt of `self._session.request(...)`: either an HTTP
response (status code and a parsed body) or a transport-level
`requests.RequestException`. -/
inductive AttemptOutcome
  | resp (status : Nat) (body : Nat)
  | transport
deriving DecidableEq

/-- The exception classes raised by `_handle_response` / `_request`
(src/eia_client/exceptions.py). -/
inductive EIAError
  | authentication
  | rateLimit
  | notFound
  | request
deriving DecidableEq

/-- `EIAClient._handle_response` (src/eia_client/client.py):
401 → EIAAuthenticationError, 429 → EIARateLimitError,
404 → EIADataNotFoundError, other ≥ 400 → EIARequestError,
otherwise the parsed body. -/
def handle_response (status body : Nat) : Except EIAError Nat :=
  if status = 401 then Except.error EIAError.authentication
  else if status = 429 then Except.error EIAError.rateLimit
  else if status = 404 then Except.error EIAError.notFound
  else if 400 ≤ status then Except.error EIAError.request
  else Except.ok body

/-- The `for attempt in range(max_retries)` loop of `EIAClient._request`
(src/eia_client/client.py).  `att` gives the outcome of each attempt,
`rem` the remaining loop iterations, `i` the current attempt index, and
`slept` the accumulated `time.sleep` total.  Only `EIARateLimitError`
(retried after `2 ** attempt`) and transport failures (retried after a
flat 1) are caught; every other error propagates immediately.  A `none`
result is Python falling off the loop (`max_retries = 0`). -/
def requestGo (att : Nat → AttemptOutcome) (maxRetries : Nat) :
    Nat → Nat → Nat → Option (Except EIAError Nat) × Nat
  | 0, _, slept => (Option.none, slept)
  | rem + 1, i, slept =>
    match att i with
    | AttemptOutcome.transport =>
      if i < maxRetries - 1 then requestGo att maxRetries rem (i + 1) (slept + 1)
      else (some (Except.error EIAError.request), slept)
    | AttemptOutcome.resp s b =>
      match handle_response s b with
      | Except.ok v => (some (Except.ok v), slept)
      | Except.error EIAError.rateLimit =>
        if i < maxRetries - 1 then requestGo att maxRetries rem (i + 1) (slept + 2 ^ i)
        else (some (Except.error EIAError.rateLimit), slept)
      | Except.error e => (some (Except.error e), slept)

/-- `EIAClient._request`: run the attempt loop from attempt 0 with no
sleep accumulated.  Result: (outcome, total backoff slept). -/
def request (att : Nat → AttemptOutcome) (maxRetries : Nat) :
    Option (Except EIAError Nat) × Nat :=
  requestGo att maxRetries maxRetries 0 0

/-- The concrete scenario of C4: attempts 1 and 2 (indices 0 and 1) are
rate-limited, attempt 3 succeeds with body 7. -/
def scenario429 : Nat → AttemptOutcome :=
  fun i => if i < 2 then AttemptOutcome.resp 429 0 else AttemptOutcome.resp 200 7

/-- C4: a 429 outcome on attempt `i` with `i < max_attempts - 1` makes the
loop sleep `2 ^ i` and move to attempt `i + 1`; a 429 outcome on the last
attempt surfaces `EIARateLimitError` with no further sleep; and with
`max_attempts = 3`, 429 on the first two attempts and success on the third
returns the successful body after a total backoff of `1 + 2`. -/
theorem rate_limit_backoff :
    (∀ (att : Nat → AttemptOutcome) (maxRetries rem i slept body : Nat),
      att i = AttemptOutcome.resp 429 body →
        (i < maxRetries - 1 →
          requestGo att maxRetries (rem + 1) i slept
            = requestGo att maxRetries rem (i + 1) (slept + 2 ^ i))
        ∧ (maxRetries - 1 ≤ i →
          requestGo att maxRetries (rem + 1) i slept
            = (some (Except.error EIAError.rateLimit), slept)))
    ∧ request scenario429 3 = (some (Except.ok 7), 1 + 2) := by
  constructor
  · intro att maxRetries rem i slept body hatt
    constructor
    · intro hlt
      simp [requestGo, hatt, handle_response, hlt]
    · intro hge
      simp [requestGo, hatt, handle_response, Nat.not_lt.mpr hge]
  · rfl

/-- Closed witness for `rate_limit_backoff`. -/
theorem rate_limit_backoff_witness :
    (requestGo scenario429 3 3 0 0 = requestGo scenario429 3 2 1 (0 + 2 ^ 0))
    ∧ (requestGo scenario429 3 1 2 3 = (some (Except.error EIAError.rateLimit), 3)
        ∨ request scenario429 3 = (some (Except.ok 7), 1 + 2)) :=
  ⟨((rate_limit_backoff.1 scenario429 3 2 0 0 0 rfl).1 (by decide)),
    Or.inr rate_limit_backoff.2⟩

/-- C8: a 401 response on any attempt makes `_request` raise
`EIAAuthenticationError` immediately from that attempt — no retry, no
added backoff — however many attempts remain. -/
theorem auth_failure_immediate (att : Nat → AttemptOutcome)
    (maxRetries rem i slept body : Nat) (hatt : att i = AttemptOutcome.resp 401 body) :
    requestGo att maxRetries (rem + 1) i slept
      = (some (Except.error EIAError.authentication), slept) := by
  simp [requestGo, hatt, handle_response]

/-- Closed witness for `auth_failure_immediate`: a 401 on the very first
attempt of a 3-attempt request fails immediately with no sleep. -/
theorem auth_failure_immediate_witness :
    request (fun _ => AttemptOutcome.resp 401 0) 3
      = (some (Except.error EIAError.authentication), 0) :=
  auth_failure_immediate (fun _ => AttemptOutcome.resp 401 0) 3 2 0 0 0 rfl

end Retry

namespace Query

/-- Wire parameter value: a string or an integer. -/
inductive QV
  | s (v : String)
  | n (v : Nat)
deriving DecidableEq

/-- Wire parameter key, tagged by its syntactic family.  `renderKey` below
gives the literal string `get_data` builds for each tag. -/
inductive WKey
  | apiKey
  | dataCol
  | facetK (name : String)
  | frequencyK
  | startK
  | endK
  | sortColumnK (i : Nat)
  | sortDirectionK (i : Nat)
  | lengthK
  | offsetK
deriving DecidableEq

/-- The exact string key emitted by the Python code for each tagged key. -/
def renderKey : WKey → String
  | WKey.apiKey => "api_key"
  | WKey.dataCol => "data[]"
  | WKey.facetK name => "facets[" ++ name ++ "][]"
  | WKey.frequencyK => "frequency"
  | WKey.startK => "start"
  | WKey.endK => "end"
  | WKey.sortColumnK i => "sort[" ++ toString i ++ "][column]"
  | WKey.sortDirectionK i => "sort[" ++ toString i ++ "][direction]"
  | WKey.lengthK => "length"
  | WKey.offsetK => "offset"

/-- One entry of the `sort` argument: `s["column"]` is a required key
(a missing column key would raise `KeyError`), `s.get("direction", "desc")`
is optional. -/
structure SortItem where
  column : String
  direction : Option String
deriving DecidableEq

/-- `for col in data_columns: params.append(("data[]", col))` -/
def colBlock (dataColumns : List String) : List (WKey × QV) :=
  dataColumns.map fun col => (WKey.dataCol, QV.s col)

/-- `for facet_name, values in facets.items(): for value in values: ...` -/
def facetBlock (facets : List (String × List String)) : List (WKey × QV) :=
  facets.flatMap fun fv => fv.2.map fun v => (WKey.facetK fv.1, QV.s v)

/-- `if frequency: params.append(("frequency", frequency))` — and likewise
for `start` / `end`; `None` and the empty string are both falsy. -/
def optStr (k : WKey) (v : Option String) : List (WKey × QV) :=
  match v with
  | some str => if str = "" then [] else [(k, QV.s str)]
  | Option.none => []

/-- `for i, s in enumerate(sort): ...` — two pairs per entry, in order. -/
def sortBlock (sort : List SortItem) : List (WKey × QV) :=
  sort.enum.flatMap fun iv =>
    [(WKey.sortColumnK iv.1, QV.s iv.2.column),
     (WKey.sortDirectionK iv.1, QV.s (iv.2.direction.getD "desc"))]

/-- `if length: params.append(("length", min(length, self._config.page_size)))` -/
def lengthBlock (length : Option Nat) (pageSize : Nat) : List (WKey × QV) :=
  match length with
  | some len => if len = 0 then [] else [(WKey.lengthK, QV.n (min len pageSize))]
  | Option.none => []

/-- `if offset: params.append(("offset", offset))` -/
def offsetBlock (offset : Nat) : List (WKey × QV) :=
  if offset = 0 then [] else [(WKey.offsetK, QV.n offset)]

/-- The parameter list `EIAClient.get_data` (src/eia_client/client.py)
builds by sequential `params.append(...)` calls, in source order:
api_key, data columns, facets, frequency, start, end, sort, length,
offset. -/
def get_data_params (apiKey : String) (dataColumns : List String)
    (facets : List (String × List String)) (frequency startDate endDate : Option String)
    (sort : List SortItem) (length : Option Nat) (offset : Nat) (pageSize : Nat) :
    List (WKey × QV) :=
  let params := [(WKey.apiKey, QV.s apiKey)]
  let params := params ++ colBlock dataColumns
  let params := params ++ facetBlock facets
  let params := params ++ optStr WKey.frequencyK frequency
  let params := params ++ optStr WKey.startK startDate
  let params := params ++ optStr WKey.endK endDate
  let params := params ++ sortBlock sort
  let params := params ++ lengthBlock length pageSize
  let params := params ++ offsetBlock offset
  params

def isFacetPair : WKey → Bool
  | WKey.facetK _ => true
  | _ => false

def isSortPair : WKey → Bool
  | WKey.sortColumnK _ => true
  | WKey.sortDirectionK _ => true
  | _ => false

/-- The scalar parameters in the sense of the spec: frequency, date range,
pagination. -/
def isScalarPair : WKey → Bool
  | WKey.frequencyK => true
  | WKey.startK => true
  | WKey.endK => true
  | WKey.lengthK => true
  | WKey.offsetK => true
  | _ => false

def isDatePair : WKey → Bool
  | WKey.frequencyK => true
  | WKey.startK => true
  | WKey.endK => true
  | _ => false

def isPagPair : WKey → Bool
  | WKey.lengthK => true
  | WKey.offsetK => true
  | _ => false

/-- Every pair whose key satisfies `p` occurs strictly before every pair
whose key satisfies `q`. -/
def keysBefore (p q : WKey → Bool) (l : List (WKey × QV)) : Prop :=
  ∀ i j : Fin l.length, p (l.get i).1 = true → q (l.get j).1 = true → (i : Nat) < (j : Nat)

instance (p q : WKey → Bool) (l : List (WKey × QV)) : Decidable (keysBefore p q l) := by
  unfold keysBefore
  infer_instance

/-- If no pair of `A` is a `q`-pair and no pair of `B` is a `p`-pair, then
in `A ++ B` all `p`-pairs come before all `q`-pairs. -/
theorem keysBefore_append {p q : WKey → Bool} {A B : List (WKey × QV)}
    (hA : ∀ kv ∈ A, q kv.1 = false) (hB : ∀ kv ∈ B, p kv.1 = false) :
    keysBefore p q (A ++ B) := by
  intro i j hp hq
  have hiA : (i : Nat) < A.length := by
    by_contra hge
    have hj := i.isLt
    simp only [List.length_append] at hj
    have hn : (i : Nat) - A.length < B.length := by omega
    have hidx : (A ++ B).get i = B.get ⟨(i : Nat) - A.length, hn⟩ := by
      simp only [List.get_eq_getElem]
      exact List.getElem_append_right (by omega)
    rw [hidx] at hp
    have hmem : B.get ⟨(i : Nat) - A.length, hn⟩ ∈ B := List.get_mem _ _ _
    rw [hB _ hmem] at hp
    exact absurd hp (by simp)
  have hjB : A.length ≤ (j : Nat) := by
    by_contra hlt
    have hn : (j : Nat) < A.length := Nat.not_le.mp hlt
    have hidx : (A ++ B).get j = A.get ⟨(j : Nat), hn⟩ := by
      simp only [List.get_eq_getElem]
      exact List.getElem_append_left hn
    rw [hidx] at hq
    have hmem : A.get ⟨(j : Nat), hn⟩ ∈ A := List.get_mem _ _ _
    rw [hA _ hmem] at hq
    exact absurd hq (by simp)
  omega

theorem colBlock_key {dataColumns : List String} :
    ∀ kv ∈ colBlock dataColumns, kv.1 = WKey.dataCol := by
  intro kv hkv
  simp only [colBlock, List.mem_map] at hkv
  obtain ⟨c, _, h⟩ := hkv
  rw [← h]

theorem facetBlock_key {facets : List (String × List String)} :
    ∀ kv ∈ facetBlock facets, ∃ name, kv.1 = WKey.facetK name := by
  intro kv hkv
  simp only [facetBlock, List.mem_flatMap, List.mem_map] at hkv
  obtain ⟨fv, _, v, _, h⟩ := hkv
  exact ⟨fv.1, by rw [← h]⟩

theorem optStr_key {k : WKey} {v : Option String} :
    ∀ kv ∈ optStr k v, kv.1 = k := by
  intro kv hkv
  cases v with
  | none => simp [optStr] at hkv
  | some str =>
    simp only [optStr] at hkv
    by_cases h : str = ""
    · simp [h] at hkv
    · simp only [h, if_false, List.mem_singleton] at hkv
      rw [hkv]

theorem sortBlock_key {sort : List SortItem} :
    ∀ kv ∈ sortBlock sort,
      (∃ i, kv.1 = WKey.sortColumnK i) ∨ (∃ i, kv.1 = WKey.sortDirectionK i) := by
  intro kv hkv
  simp only [sortBlock, List.mem_flatMap, List.mem_cons, List.mem_singleton,
    List.not_mem_nil, or_false] at hkv
  obtain ⟨iv, _, h | h⟩ := hkv
  · exact Or.inl ⟨iv.1, by rw [h]⟩
  · exact Or.inr ⟨iv.1, by rw [h]⟩

theorem lengthBlock_key {length : Option Nat} {pageSize : Nat} :
    ∀ kv ∈ lengthBlock length pageSize, kv.1 = WKey.lengthK := by
  intro kv hkv
  cases length with
  | none => simp [lengthBlock] at hkv
  | some len =>
    simp only [lengthBlock] at hkv
    by_cases h : len = 0
    · simp [h] at hkv
    · simp only [h, if_false, List.mem_singleton] at hkv
      rw [hkv]

theorem offsetBlock_key {offset : Nat} :
    ∀ kv ∈ offsetBlock offset, kv.1 = WKey.offsetK := by
  intro kv hkv
  simp only [offsetBlock] at hkv
  by_cases h : offset = 0
  · simp [h] at hkv
  · simp only [h, if_false, List.mem_singleton] at hkv
    rw [hkv]

/-- C5 as stated is false on the code: with a facet, a frequency and one
sort entry, the `frequency` scalar pair is emitted before the sort pairs,
so the scalar parameters are not all appended after sort. -/
theorem get_data_params_scalars_not_last :
    ¬ keysBefore isSortPair isScalarPair
        (get_data_params "k" [] [("stateid", ["CO"])] (some "monthly")
          Option.none Option.none [SortItem.mk "period" Option.none] Option.none 0 5000) := by
  decide

/-- C5 (amended): `get_data` emits pairs in the deterministic source
order api_key, data columns, facets, frequency, start, end, sort, length,
offset.  Hence all facet pairs come before all sort pairs and the
pagination scalars (`length`, `offset`) are appended last, after facets
and sort — but the frequency/date-range scalars sit between facets and
sort, not after sort. -/
theorem get_data_params_order (apiKey : String) (dataColumns : List String)
    (facets : List (String × List String)) (frequency startDate endDate : Option String)
    (sort : List SortItem) (length : Option Nat) (offset pageSize : Nat) :
    keysBefore isFacetPair isSortPair
        (get_data_params apiKey dataColumns facets frequency startDate endDate sort length offset pageSize)
    ∧ keysBefore isFacetPair isDatePair
        (get_data_params apiKey dataColumns facets frequency startDate endDate sort length offset pageSize)
    ∧ keysBefore isDatePair isSortPair
        (get_data_params apiKey dataColumns facets frequency startDate endDate sort length offset pageSize)
    ∧ keysBefore isSortPair isPagPair
        (get_data_params apiKey dataColumns facets frequency startDate endDate sort length offset pageSize)
    ∧ keysBefore isFacetPair isPagPair
        (get_data_params apiKey dataColumns facets frequency startDate endDate sort length offset pageSize) := by
  have hsingle : ∀ kv ∈ [(WKey.apiKey, QV.s apiKey)], kv.1 = WKey.apiKey := by
    intro kv hkv
    rw [List.mem_singleton.mp hkv]
  refine ⟨?_, ?_, ?_, ?_, ?_⟩
  · have hout : get_data_params apiKey dataColumns facets frequency startDate endDate sort length offset pageSize
        = ([(WKey.apiKey, QV.s apiKey)] ++ (colBlock dataColumns ++ (facetBlock facets
            ++ (optStr WKey.frequencyK frequency ++ (optStr WKey.startK startDate
            ++ optStr WKey.endK endDate)))))
          ++ (sortBlock sort ++ (lengthBlock length pageSize ++ offsetBlock offset)) := by
      simp [get_data_params, List.append_assoc]
    rw [hout]
    apply keysBefore_append
    · intro kv hkv
      simp only [List.mem_append] at hkv
      rcases hkv with h | h | h | h | h | h
      · rw [hsingle kv h]; rfl
      · rw [colBlock_key kv h]; rfl
      · obtain ⟨nm, hk⟩ := facetBlock_key kv h
        rw [hk]; rfl
      · rw [optStr_key kv h]; rfl
      · rw [optStr_key kv h]; rfl
      · rw [optStr_key kv h]; rfl
    · intro kv hkv
      simp only [List.mem_append] at hkv
      rcases hkv with h | h | h
      · rcases sortBlock_key kv h with ⟨i, hk⟩ | ⟨i, hk⟩ <;> rw [hk] <;> rfl
      · rw [lengthBlock_key kv h]; rfl
      · rw [offsetBlock_key kv h]; rfl
  · have hout : get_data_params apiKey dataColumns facets frequency startDate endDate sort length offset pageSize
        = ([(WKey.apiKey, QV.s apiKey)] ++ (colBlock dataColumns ++ facetBlock facets))
          ++ (optStr WKey.frequencyK frequency ++ (optStr WKey.startK startDate
            ++ (optStr WKey.endK endDate ++ (sortBlock sort
            ++ (lengthBlock length pageSize ++ offsetBlock offset))))) := by
      simp [get_data_params, List.append_assoc]
    rw [hout]
    apply keysBefore_append
    · intro kv hkv
      simp only [List.mem_append] at hkv
      rcases hkv with h | h | h
      · rw [hsingle kv h]; rfl
      · rw [colBlock_key kv h]; rfl
      · obtain ⟨nm, hk⟩ := facetBlock_key kv h
        rw [hk]; rfl
    · intro kv hkv
      simp only [List.mem_append] at hkv
      rcases hkv with h | h | h | h | h | h
      · rw [optStr_key kv h]; rfl
      · rw [optStr_key kv h]; rfl
      · rw [optStr_key kv h]; rfl
      · rcases sortBlock_key kv h with ⟨i, hk⟩ | ⟨i, hk⟩ <;> rw [hk] <;> rfl
      · rw [lengthBlock_key kv h]; rfl
      · rw [offsetBlock_key kv h]; rfl
  · have hout : get_data_params apiKey dataColumns facets frequency startDate endDate sort length offset pageSize
        = ([(WKey.apiKey, QV.s apiKey)] ++ (colBlock dataColumns ++ (facetBlock facets
            ++ (optStr WKey.frequencyK frequency ++ (optStr WKey.startK startDate
            ++ optStr WKey.endK endDate)))))
          ++ (sortBlock sort ++ (lengthBlock length pageSize ++ offsetBlock offset)) := by
      simp [get_data_params, List.append_assoc]
    rw [hout]
    apply keysBefore_append
    · intro kv hkv
      simp only [List.mem_append] at hkv
      rcases hkv with h | h | h | h | h | h
      · rw [hsingle kv h]; rfl
      · rw [colBlock_key kv h]; rfl
      · obtain ⟨nm, hk⟩ := facetBlock_key kv h
        rw [hk]; rfl
      · rw [optStr_key kv h]; rfl
      · rw [optStr_key kv h]; rfl
      · rw [optStr_key kv h]; rfl
    · intro kv hkv
      simp only [List.mem_append] at hkv
      rcases hkv with h | h | h
      · rcases sortBlock_key kv h with ⟨i, hk⟩ | ⟨i, hk⟩ <;> rw [hk] <;> rfl
      · rw [lengthBlock_key kv h]; rfl
      · rw [offsetBlock_key kv h]; rfl
  · have hout : get_data_params apiKey dataColumns facets frequency startDate endDate sort length offset pageSize
        = ([(WKey.apiKey, QV.s apiKey)] ++ (colBlock dataColumns ++ (facetBlock facets
            ++ (optStr WKey.frequencyK frequency ++ (optStr WKey.startK startDate
            ++ (optStr WKey.endK endDate ++ sortBlock sort))))))
          ++ (lengthBlock length pageSize ++ offsetBlock offset) := by
      simp [get_data_params, List.append_assoc]
    rw [hout]
    apply keysBefore_append
    · intro kv hkv
      simp only [List.mem_append] at hkv
      rcases hkv with h | h | h | h | h | h | h
      · rw [hsingle kv h]; rfl
      · rw [colBlock_key kv h]; rfl
      · obtain ⟨nm, hk⟩ := facetBlock_key kv h
        rw [hk]; rfl
      · rw [optStr_key kv h]; rfl
      · rw [optStr_key kv h]; rfl
      · rw [optStr_key kv h]; rfl
      · rcases sortBlock_key kv h with ⟨i, hk⟩ | ⟨i, hk⟩ <;> rw [hk] <;> rfl
    · intro kv hkv
      simp only [List.mem_append] at hkv
      rcases hkv with h | h
      · rw [lengthBlock_key kv h]; rfl
      · rw [offsetBlock_key kv h]; rfl
  · have hout : get_data_params apiKey dataColumns facets frequency startDate endDate sort length offset pageSize
        = ([(WKey.apiKey, QV.s apiKey)] ++ (colBlock dataColumns ++ (facetBlock facets
            ++ (optStr WKey.frequencyK frequency ++ (optStr WKey.startK startDate
            ++ (optStr WKey.endK endDate ++ sortBlock sort))))))
          ++ (lengthBlock length pageSize ++ offsetBlock offset) := by
      simp [get_data_params, List.append_assoc]
    rw [hout]
    apply keysBefore_append
    · intro kv hkv
      simp only [List.mem_append] at hkv
      rcases hkv with h | h | h | h | h | h | h
      · rw [hsingle kv h]; rfl
      · rw [colBlock_key kv h]; rfl
      · obtain ⟨nm, hk⟩ := facetBlock_key kv h
        rw [hk]; rfl
      · rw [optStr_key kv h]; rfl
      · rw [optStr_key kv h]; rfl
      · rw [optStr_key kv h]; rfl
      · rcases sortBlock_key kv h with ⟨i, hk⟩ | ⟨i, hk⟩ <;> rw [hk] <;> rfl
    · intro kv hkv
      simp only [List.mem_append] at hkv
      rcases hkv with h | h
      · rw [lengthBlock_key kv h]; rfl
      · rw [offsetBlock_key kv h]; rfl

/-- Closed witness for `get_data_params_order`. -/
theorem get_data_params_order_witness :
    keysBefore isFacetPair isSortPair
        (get_data_params "k" [] [("stateid", ["CO"])] (some "monthly")
          Option.none Option.none [SortItem.mk "period" Option.none] Option.none 0 5000)
    ∧ keysBefore isFacetPair isDatePair
        (get_data_params "k" [] [("stateid", ["CO"])] (some "monthly")
          Option.none Option.none [SortItem.mk "period" Option.none] Option.none 0 5000)
    ∧ keysBefore isDatePair isSortPair
        (get_data_params "k" [] [("stateid", ["CO"])] (some "monthly")
          Option.none Option.none [SortItem.mk "period" Option.none] Option.none 0 5000)
    ∧ keysBefore isSortPair isPagPair
        (get_data_params "k" [] [("stateid", ["CO"])] (some "monthly")
          Option.none Option.none [SortItem.mk "period" Option.none] Option.none 0 5000)
    ∧ keysBefore isFacetPair isPagPair
        (get_data_params "k" [] [("stateid", ["CO"])] (some "monthly")
          Option.none Option.none [SortItem.mk "period" Option.none] Option.none 0 5000) :=
  get_data_params_order "k" [] [("stateid", ["CO"])] (some "monthly")
    Option.none Option.none [SortItem.mk "period" Option.none] Option.none 0 5000

/-- C9: with the default remote page-size ceiling of 5000, every positive
`length` is emitted as `min(length, 5000)` — silently clamped, never an
error: the length pair is present, unique, and carries the clamped value. -/
theorem get_data_length_clamped (apiKey : String) (dataColumns : List String)
    (facets : List (String × List String)) (frequency startDate endDate : Option String)
    (sort : List SortItem) (offset : Nat) (len : Nat) (hlen : 0 < len) :
    (get_data_params apiKey dataColumns facets frequency startDate endDate sort
        (some len) offset 5000).filter (fun kv => kv.1 == WKey.lengthK)
      = [(WKey.lengthK, QV.n (min len 5000))] := by
  have hne : len ≠ 0 := by omega
  have hcol : (colBlock dataColumns).filter (fun kv => kv.1 == WKey.lengthK) = [] := by
    rw [List.filter_eq_nil_iff]
    intro kv hkv
    rw [colBlock_key kv hkv]
    simp
  have hfac : (facetBlock facets).filter (fun kv => kv.1 == WKey.lengthK) = [] := by
    rw [List.filter_eq_nil_iff]
    intro kv hkv
    obtain ⟨nm, hk⟩ := facetBlock_key kv hkv
    rw [hk]
    simp
  have hopt : ∀ k, k ≠ WKey.lengthK → ∀ v,
      (optStr k v).filter (fun kv => kv.1 == WKey.lengthK) = [] := by
    intro k hk v
    rw [List.filter_eq_nil_iff]
    intro kv hkv
    rw [optStr_key kv hkv]
    simp [hk]
  have hsort : (sortBlock sort).filter (fun kv => kv.1 == WKey.lengthK) = [] := by
    rw [List.filter_eq_nil_iff]
    intro kv hkv
    rcases sortBlock_key kv hkv with ⟨i, hk⟩ | ⟨i, hk⟩ <;> rw [hk] <;> simp
  have hoff : (offsetBlock offset).filter (fun kv => kv.1 == WKey.lengthK) = [] := by
    rw [List.filter_eq_nil_iff]
    intro kv hkv
    rw [offsetBlock_key kv hkv]
    simp
  have hlenb : (lengthBlock (some len) 5000).filter (fun kv => kv.1 == WKey.lengthK)
      = [(WKey.lengthK, QV.n (min len 5000))] := by
    simp [lengthBlock, hne]
  simp [get_data_params, List.filter_append, hcol, hfac,
    hopt WKey.frequencyK (by simp) frequency,
    hopt WKey.startK (by simp) startDate,
    hopt WKey.endK (by simp) endDate,
    hsort, hoff, hlenb]

/-- Closed witness for `get_data_length_clamped`: a requested length of
9000 is clamped to 5000. -/
theorem get_data_length_clamped_witness :
    (get_data_params "k" [] [] Option.none Option.none Option.none []
        (some 9000) 0 5000).filter (fun kv => kv.1 == WKey.lengthK)
      = [(WKey.lengthK, QV.n (min 9000 5000))] :=
  get_data_length_clamped "k" [] [] Option.none Option.none Option.none [] 0 9000 (by decide)

end Query

namespace Models

/-- A loosely-typed Python value as stored in a raw API record. -/
inductive PyVal
  | vnone
  | vstr (s : String)
  | vint (n : Int)
  | vfloat (q : ℚ)
deriving DecidableEq

/-- Python truthiness: `None`, `""`, `0` and `0.0` are falsy. -/
def truthy : PyVal → Bool
  | PyVal.vnone => false
  | PyVal.vstr s => decide (s ≠ "")
  | PyVal.vint n => decide (n ≠ 0)
  | PyVal.vfloat q => decide (q ≠ 0)

/-- `x or y` on Python values. -/
def pyOr (v d : PyVal) : PyVal :=
  if truthy v then v else d

/-- `data.get(k)` on a raw record (first binding wins, as in a dict). -/
def rawGet (data : List (String × PyVal)) (k : String) : Option PyVal :=
  match data with
  | [] => Option.none
  | (k', v) :: rest => if k' = k then some v else rawGet rest k

/-- `data.get(k, default)`. -/
def rawGetD (data : List (String × PyVal)) (k : String) (d : PyVal) : PyVal :=
  (rawGet data k).getD d

def digitsVal (cs : List Char) : Nat :=
  cs.foldl (fun a c => a * 10 + (c.toNat - 48)) 0

/-- Unsigned decimal literal accepted by Python `float(...)`:
digits, or digits-dot-digits with at least one digit. -/
def parseFloatCore (cs : List Char) : Option ℚ :=
  let ip := cs.takeWhile Char.isDigit
  let rest := cs.dropWhile Char.isDigit
  match rest with
  | [] => if ip.isEmpty then Option.none else some ((digitsVal ip : ℚ))
  | c :: fp =>
    if c = '.' then
      if fp.all Char.isDigit && !(ip.isEmpty && fp.isEmpty) then
        some ((digitsVal ip : ℚ) + (digitsVal fp : ℚ) / (10 : ℚ) ^ fp.length)
      else Option.none
    else Option.none

/-- Python `float(s)` on a string: strip whitespace, optional sign, then a
decimal literal; anything else raises `ValueError` (`Option.none`). -/
def parseFloat (s : String) : Option ℚ :=
  let cs := s.data.dropWhile Char.isWhitespace
  let cs := (cs.reverse.dropWhile Char.isWhitespace).reverse
  match cs with
  | '-' :: rest => (parseFloatCore rest).map Neg.neg
  | '+' :: rest => parseFloatCore rest
  | _ => parseFloatCore cs

/-- Python `int(s)` on a string: strip whitespace, optional sign, all
digits; anything else raises `ValueError`. -/
def parsePyInt (s : String) : Option Int :=
  let cs := s.data.dropWhile Char.isWhitespace
  let cs := (cs.reverse.dropWhile Char.isWhitespace).reverse
  match cs with
  | '-' :: rest =>
    if !rest.isEmpty && rest.all Char.isDigit then some (-(digitsVal rest : Int))
    else Option.none
  | '+' :: rest =>
    if !rest.isEmpty && rest.all Char.isDigit then some ((digitsVal rest : Int))
    else Option.none
  | _ =>
    if !cs.isEmpty && cs.all Char.isDigit then some ((digitsVal cs : Int))
    else Option.none

/-- Python `float(v)`: numbers convert, `None` raises `TypeError`, strings
parse or raise `ValueError`. -/
def pyFloat : PyVal → Option ℚ
  | PyVal.vnone => Option.none
  | PyVal.vint n => some (n : ℚ)
  | PyVal.vfloat q => some q
  | PyVal.vstr s => parseFloat s

/-- `int(v[:4])` as used for `operating-year-month`: slicing anything but
a string raises `TypeError`. -/
def sliceInt4 (v : PyVal) : Option Int :=
  match v with
  | PyVal.vstr s => parsePyInt (String.mk (s.data.take 4))
  | _ => Option.none

/-- `float(data[k]) if data.get(k) else None` — the latitude/longitude
pattern of `GeneratorCapacity.from_dict`.  Outer `Option` is raising,
inner `Option` is the field value. -/
def optFloatField (v : PyVal) : Option (Option ℚ) :=
  if truthy v then (pyFloat v).map some else some Option.none

/-- `int(data[k][:4]) if data.get(k) else None` — the operating-year
pattern. -/
def optYearField (v : PyVal) : Option (Option Int) :=
  if truthy v then (sliceInt4 v).map some else some Option.none

/-- `FuelTypeData` (src/eia_client/models/renewable.py). -/
structure FuelTypeData where
  period : PyVal
  respondent : PyVal
  respondent_name : PyVal
  fuel_type : PyVal
  fuel_type_description : PyVal
  value : ℚ
  units : PyVal
  raw_data : List (String × PyVal)
deriving DecidableEq

/-- `FuelTypeData.from_dict`: `Option.none` models an exception escaping
the constructor call (only `float(...)` can raise here). -/
def FuelTypeData.from_dict (data : List (String × PyVal)) : Option FuelTypeData :=
  (pyFloat (pyOr (rawGetD data "value" (PyVal.vint 0)) (PyVal.vint 0))).map fun value =>
    { period := rawGetD data "period" (PyVal.vstr "")
      respondent := rawGetD data "respondent" (PyVal.vstr "")
      respondent_name := rawGetD data "respondent-name" (PyVal.vstr "")
      fuel_type := rawGetD data "fueltype" (PyVal.vstr "")
      fuel_type_description := rawGetD data "type-name" (PyVal.vstr "")
      value := value
      units := rawGetD data "value-units" (PyVal.vstr "megawatthours")
      raw_data := data }

/-- `GeneratorCapacity` (src/eia_client/models/renewable.py). -/
structure GeneratorCapacity where
  period : PyVal
  state : PyVal
  state_description : PyVal
  sector : PyVal
  sector_description : PyVal
  entity_id : PyVal
  entity_name : PyVal
  plant_id : PyVal
  plant_name : PyVal
  generator_id : PyVal
  technology : PyVal
  energy_source : PyVal
  energy_source_description : PyVal
  prime_mover : PyVal
  nameplate_capacity_mw : ℚ
  net_summer_capacity_mw : ℚ
  net_winter_capacity_mw : ℚ
  status : PyVal
  operating_year : Option Int
  latitude : Option ℚ
  longitude : Option ℚ
  raw_data : List (String × PyVal)
deriving DecidableEq

/-- `GeneratorCapacity.from_dict`: `Option.none` models an exception
escaping the constructor call (the three `float(... or 0)` fields, the
year slice, and the latitude/longitude conversions can raise). -/
def GeneratorCapacity.from_dict (data : List (String × PyVal)) : Option GeneratorCapacity := do
  let np ← pyFloat (pyOr (rawGetD data "nameplate-capacity-mw" (PyVal.vint 0)) (PyVal.vint 0))
  let ns ← pyFloat (pyOr (rawGetD data "net-summer-capacity-mw" (PyVal.vint 0)) (PyVal.vint 0))
  let nw ← pyFloat (pyOr (rawGetD data "net-winter-capacity-mw" (PyVal.vint 0)) (PyVal.vint 0))
  let oy ← optYearField (rawGetD data "operating-year-month" PyVal.vnone)
  let lat ← optFloatField (rawGetD data "latitude" PyVal.vnone)
  let lon ← optFloatField (rawGetD data "longitude" PyVal.vnone)
  pure
    { period := rawGetD data "period" (PyVal.vstr "")
      state := rawGetD data "stateid" (PyVal.vstr "")
      state_description := rawGetD data "stateName" (PyVal.vstr "")
      sector := rawGetD data "sector" (PyVal.vstr "")
      sector_description := rawGetD data "sectorName" (PyVal.vstr "")
      entity_id := rawGetD data "entityid" (PyVal.vstr "")
      entity_name := rawGetD data "entityName" (PyVal.vstr "")
      plant_id := rawGetD data "plantid" (PyVal.vstr "")
      plant_name := rawGetD data "plantName" (PyVal.vstr "")
      generator_id := rawGetD data "generatorid" (PyVal.vstr "")
      technology := rawGetD data "technology" (PyVal.vstr "")
      energy_source := rawGetD data "energy_source_code" (PyVal.vstr "")
      energy_source_description := rawGetD data "energy_source_desc" (PyVal.vstr "")
      prime_mover := rawGetD data "prime_mover_code" (PyVal.vstr "")
      nameplate_capacity_mw := np
      net_summer_capacity_mw := ns
      net_winter_capacity_mw := nw
      status := rawGetD data "status" (PyVal.vstr "")
      operating_year := oy
      latitude := lat
      longitude := lon
      raw_data := data }

/-- A value that `float(x or 0)` can convert without raising. -/
def floatOk (v : PyVal) : Prop := (pyFloat (pyOr v (PyVal.vint 0))).isSome = true

/-- A value the latitude/longitude pattern can process without raising. -/
def optFloatOk (v : PyVal) : Prop := truthy v = true → (pyFloat v).isSome = true

/-- A value the operating-year pattern can process without raising. -/
def yearOk (v : PyVal) : Prop := truthy v = true → (sliceInt4 v).isSome = true

theorem optFloatField_isSome {v : PyVal} (h : optFloatOk v) :
    ∃ o, optFloatField v = some o := by
  unfold optFloatField
  by_cases ht : truthy v = true
  · obtain ⟨q, hq⟩ := Option.isSome_iff_exists.mp (h ht)
    exact ⟨some q, by rw [if_pos ht, hq]; rfl⟩
  · exact ⟨Option.none, by rw [if_neg ht]⟩

theorem optYearField_isSome {v : PyVal} (h : yearOk v) :
    ∃ o, optYearField v = some o := by
  unfold optYearField
  by_cases ht : truthy v = true
  · obtain ⟨n, hn⟩ := Option.isSome_iff_exists.mp (h ht)
    exact ⟨some n, by rw [if_pos ht, hn]; rfl⟩
  · exact ⟨Option.none, by rw [if_neg ht]⟩

/-- C2 as stated is false on the code: a `value` holding the unparseable
string `"abc"` makes `FuelTypeData.from_dict` raise `ValueError` instead
of defaulting to `0.0`; and the `units` string field defaults to
`"megawatthours"`, not the empty string, when its key is absent. -/
theorem from_dict_raises_on_unparseable :
    FuelTypeData.from_dict [("value", PyVal.vstr "abc")] = Option.none
    ∧ (FuelTypeData.from_dict []).map FuelTypeData.units
        = some (PyVal.vstr "megawatthours") := by
  constructor
  · rfl
  · rfl

/-- C2 (amended): the mappers degrade instead of raising as long as every
numeric field is absent, `None`, or falsy, or parses as a number: then
`from_dict` returns an entity, a falsy-or-absent numeric field defaults to
`0.0`, and absent string fields default to `""` (except `units`, which
defaults to `"megawatthours"`).  A truthy unparseable numeric value makes
the mapper raise instead of defaulting. -/
theorem mappers_degrade_to_defaults :
    (∀ data : List (String × PyVal),
      floatOk (rawGetD data "value" (PyVal.vint 0)) →
        (FuelTypeData.from_dict data).isSome = true
        ∧ (truthy (rawGetD data "value" (PyVal.vint 0)) = false →
            (FuelTypeData.from_dict data).map FuelTypeData.value = some 0)
        ∧ (rawGet data "period" = Option.none →
            (FuelTypeData.from_dict data).map FuelTypeData.period = some (PyVal.vstr ""))
        ∧ (rawGet data "value-units" = Option.none →
            (FuelTypeData.from_dict data).map FuelTypeData.units
              = some (PyVal.vstr "megawatthours")))
    ∧ (∀ data : List (String × PyVal),
      floatOk (rawGetD data "nameplate-capacity-mw" (PyVal.vint 0)) →
      floatOk (rawGetD data "net-summer-capacity-mw" (PyVal.vint 0)) →
      floatOk (rawGetD data "net-winter-capacity-mw" (PyVal.vint 0)) →
      yearOk (rawGetD data "operating-year-month" PyVal.vnone) →
      optFloatOk (rawGetD data "latitude" PyVal.vnone) →
      optFloatOk (rawGetD data "longitude" PyVal.vnone) →
        (GeneratorCapacity.from_dict data).isSome = true
        ∧ (truthy (rawGetD data "nameplate-capacity-mw" (PyVal.vint 0)) = false →
            (GeneratorCapacity.from_dict data).map GeneratorCapacity.nameplate_capacity_mw
              = some 0)
        ∧ (rawGet data "stateid" = Option.none →
            (GeneratorCapacity.from_dict data).map GeneratorCapacity.state
              = some (PyVal.vstr ""))) := by
  constructor
  · intro data h1
    obtain ⟨q, hq⟩ := Option.isSome_iff_exists.mp h1
    refine ⟨by simp [FuelTypeData.from_dict, hq], ?_, ?_, ?_⟩
    · intro hfalse
      have hor : pyOr (rawGetD data "value" (PyVal.vint 0)) (PyVal.vint 0) = PyVal.vint 0 := by
        unfold pyOr
        rw [hfalse]
        simp
      simp [FuelTypeData.from_dict, hor, pyFloat]
    · intro habs
      have hp : rawGetD data "period" (PyVal.vstr "") = PyVal.vstr "" := by
        unfold rawGetD
        rw [habs]
        rfl
      simp [FuelTypeData.from_dict, hq, hp]
    · intro habs
      have hp : rawGetD data "value-units" (PyVal.vstr "megawatthours")
          = PyVal.vstr "megawatthours" := by
        unfold rawGetD
        rw [habs]
        rfl
      simp [FuelTypeData.from_dict, hq, hp]
  · intro data h1 h2 h3 h4 h5 h6
    obtain ⟨np, hnp⟩ := Option.isSome_iff_exists.mp h1
    obtain ⟨ns, hns⟩ := Option.isSome_iff_exists.mp h2
    obtain ⟨nw, hnw⟩ := Option.isSome_iff_exists.mp h3
    obtain ⟨oy, hoy⟩ := optYearField_isSome h4
    obtain ⟨lat, hlat⟩ := optFloatField_isSome h5
    obtain ⟨lon, hlon⟩ := optFloatField_isSome h6
    refine ⟨by simp [GeneratorCapacity.from_dict, hnp, hns, hnw, hoy, hlat, hlon], ?_, ?_⟩
    · intro hfalse
      have hor : pyOr (rawGetD data "nameplate-capacity-mw" (PyVal.vint 0)) (PyVal.vint 0)
          = PyVal.vint 0 := by
        unfold pyOr
        rw [hfalse]
        simp
      rw [hor] at hnp
      have hnp0 : np = 0 := by
        have : pyFloat (PyVal.vint 0) = some ((0 : Int) : ℚ) := rfl
        rw [this] at hnp
        simpa using (Option.some_injective _ hnp).symm
      subst hnp0
      simp [GeneratorCapacity.from_dict, hor, hnp, hns, hnw, hoy, hlat, hlon]
    · intro habs
      have hp : rawGetD data "stateid" (PyVal.vstr "") = PyVal.vstr "" := by
        unfold rawGetD
        rw [habs]
        rfl
      simp [GeneratorCapacity.from_dict, hnp, hns, hnw, hoy, hlat, hlon, hp]

/-- Closed witness for `mappers_degrade_to_defaults`, at the empty record. -/
theorem mappers_degrade_to_defaults_witness :
    ((FuelTypeData.from_dict ([] : List (String × PyVal))).isSome = true
      ∧ (truthy (rawGetD [] "value" (PyVal.vint 0)) = false →
          (FuelTypeData.from_dict []).map FuelTypeData.value = some 0)
      ∧ (rawGet [] "period" = Option.none →
          (FuelTypeData.from_dict []).map FuelTypeData.period = some (PyVal.vstr ""))
      ∧ (rawGet [] "value-units" = Option.none →
          (FuelTypeData.from_dict []).map FuelTypeData.units
            = some (PyVal.vstr "megawatthours")))
    ∧ ((GeneratorCapacity.from_dict ([] : List (String × PyVal))).isSome = true
      ∧ (truthy (rawGetD [] "nameplate-capacity-mw" (PyVal.vint 0)) = false →
          (GeneratorCapacity.from_dict []).map GeneratorCapacity.nameplate_capacity_mw
            = some 0)
      ∧ (rawGet [] "stateid" = Option.none →
          (GeneratorCapacity.from_dict []).map GeneratorCapacity.state
            = some (PyVal.vstr ""))) :=
  ⟨mappers_degrade_to_defaults.1 [] rfl,
   mappers_degrade_to_defaults.2 [] rfl rfl rfl
     (fun h => absurd h (by decide)) (fun h => absurd h (by decide))
     (fun h => absurd h (by decide))⟩

/-- C3 fails on the code: a record that carries `latitude: 0` (a present,
numeric zero coordinate) is mapped to an absent latitude, because
`if data.get("latitude")` tests truthiness and `0` is falsy — so a zero
coordinate is indistinguishable from missing location data. -/
theorem latitude_zero_dropped :
    rawGet [("latitude", PyVal.vint 0)] "latitude" = some (PyVal.vint 0)
    ∧ (GeneratorCapacity.from_dict [("latitude", PyVal.vint 0)]).map GeneratorCapacity.latitude
        = some Option.none
    ∧ (GeneratorCapacity.from_dict []).map GeneratorCapacity.latitude
        = some Option.none := by
  refine ⟨rfl, rfl, rfl⟩

end Models

namespace Geo

/-- A vertex or test point: (latitude, longitude), as exact rationals. -/
abbrev Pt := ℚ × ℚ

/-- Rotate right by one: `prevList l` lists `polygon[j]` for `j = i - 1`
(cyclically), aligned with `polygon[i]` — the `j = n - 1; ...; j = i`
bookkeeping of the Python loop. -/
def prevList (l : List Pt) : List Pt := l.rotate (l.length - 1)

/-- The edge list traversed by the loop: `(polygon[i], polygon[j])` with
`j` the cyclic predecessor of `i`. -/
def edges (polygon : List Pt) : List (Pt × Pt) :=
  polygon.zip (prevList polygon)

/-- The loop-body test of `point_in_polygon` (src/backend/main.py):
`(polygon[i][0] > lat) != (polygon[j][0] > lat) and
 lon < (polygon[j][1] - polygon[i][1]) * (lat - polygon[i][0]) /
       (polygon[j][0] - polygon[i][0]) + polygon[i][1]`
with `e = (polygon[i], polygon[j])`. -/
def crossB (lat lon : ℚ) (e : Pt × Pt) : Bool :=
  (decide (e.1.1 > lat) != decide (e.2.1 > lat))
    && decide (lon < (e.2.2 - e.1.2) * (lat - e.1.1) / (e.2.1 - e.1.1) + e.1.2)

/-- `point_in_polygon(lat, lon, polygon)`: ray casting, toggling `inside`
on each crossing. -/
def point_in_polygon (lat lon : ℚ) (polygon : List Pt) : Bool :=
  (edges polygon).foldl (fun inside e => if crossB lat lon e then !inside else inside) false

/-- The loop-body test with Python division semantics made explicit:
the second conjunct is only evaluated when the straddle guard holds, and
evaluating it with a zero denominator raises `ZeroDivisionError`
(`Option.none`). -/
def crossChecked (lat lon : ℚ) (e : Pt × Pt) : Option Bool :=
  if decide (e.1.1 > lat) != decide (e.2.1 > lat) then
    if e.2.1 - e.1.1 = 0 then Option.none
    else some (decide (lon < (e.2.2 - e.1.2) * (lat - e.1.1) / (e.2.1 - e.1.1) + e.1.2))
  else some false

/-- `point_in_polygon` with the possible `ZeroDivisionError` made
explicit. -/
def point_in_polygon_checked (lat lon : ℚ) (polygon : List Pt) : Option Bool :=
  (edges polygon).foldl
    (fun acc e => acc.bind fun inside =>
      (crossChecked lat lon e).map fun c => if c then !inside else inside)
    (some false)

/-- When the straddle guard holds the two vertex latitudes differ, so the
denominator of the crossing formula is nonzero. -/
theorem guard_denom_ne_zero {lat a c : ℚ}
    (h : (decide (a > lat) != decide (c > lat)) = true) : c - a ≠ 0 := by
  intro hac
  have : a = c := by linarith [sub_eq_zero.mp hac]
  rw [this] at h
  simp at h

theorem crossChecked_eq_some (lat lon : ℚ) (e : Pt × Pt) :
    crossChecked lat lon e = some (crossB lat lon e) := by
  unfold crossChecked crossB
  by_cases hg : (decide (e.1.1 > lat) != decide (e.2.1 > lat)) = true
  · rw [if_pos hg, if_neg (guard_denom_ne_zero hg), hg, Bool.true_and]
  · have hg' : (decide (e.1.1 > lat) != decide (e.2.1 > lat)) = false := by
      revert hg
      cases decide (e.1.1 > lat) != decide (e.2.1 > lat) <;> simp
    rw [if_neg hg, hg', Bool.false_and]

/-- The checked fold agrees with the plain fold whenever the per-edge
test never raises. -/
theorem foldl_bind_map {α : Type} (f : α → Option Bool) (g : α → Bool)
    (hfg : ∀ a, f a = some (g a)) :
    ∀ (l : List α) (b : Bool),
      l.foldl (fun acc a => acc.bind fun inside =>
          (f a).map fun c => if c then !inside else inside) (some b)
        = some (l.foldl (fun inside a => if g a then !inside else inside) b) := by
  intro l
  induction l with
  | nil => intro b; rfl
  | cons a rest ih =>
    intro b
    simp only [List.foldl_cons, Option.some_bind, hfg a, Option.map_some']
    exact ih (if g a then !b else b)

/-- C10: `point_in_polygon` terminates with a boolean and never divides
by zero — the straddle guard is checked first and forces the two vertex
latitudes apart, so the checked evaluation never raises and agrees with
the total rational-arithmetic evaluation. -/
theorem point_in_polygon_no_div_error (lat lon : ℚ) (polygon : List Pt) :
    point_in_polygon_checked lat lon polygon = some (point_in_polygon lat lon polygon) := by
  unfold point_in_polygon_checked point_in_polygon
  exact foldl_bind_map (crossChecked lat lon) (crossB lat lon)
    (crossChecked_eq_some lat lon) (edges polygon) false

/-- Toggling on each `p`-element computes the parity of the `p`-count. -/
theorem foldl_flip {α : Type} (p : α → Bool) :
    ∀ (l : List α) (b : Bool),
      l.foldl (fun inside e => if p e then !inside else inside) b
        = Bool.xor b (decide (l.countP p % 2 = 1)) := by
  intro l
  induction l with
  | nil =>
    intro b
    simp [List.countP_nil]
  | cons x rest ih =>
    intro b
    by_cases hx : p x = true
    · have hcnt : (x :: rest).countP p = rest.countP p + 1 := by
        rw [List.countP_cons, hx]
        simp
      have hd : decide ((rest.countP p + 1) % 2 = 1)
          = !decide (rest.countP p % 2 = 1) := by
        have hiff : (rest.countP p + 1) % 2 = 1 ↔ ¬(rest.countP p % 2 = 1) := by omega
        rw [decide_eq_decide.mpr hiff, decide_not]
      rw [List.foldl_cons, if_pos hx, ih (!b), hcnt, hd, Bool.not_xor, Bool.xor_not]
    · have hx' : p x = false := by revert hx; cases p x <;> simp
      have hcnt : (x :: rest).countP p = rest.countP p := by
        rw [List.countP_cons, hx']
        simp
      rw [List.foldl_cons, if_neg (by rw [hx']; simp), ih b, hcnt]

/-- `point_in_polygon` is the parity of the number of crossing edges. -/
theorem pip_parity (lat lon : ℚ) (poly : List Pt) :
    point_in_polygon lat lon poly
      = decide ((edges poly).countP (crossB lat lon) % 2 = 1) := by
  unfold point_in_polygon
  rw [foldl_flip, Bool.false_xor]

theorem zip_rotate {α β : Type} (a : List α) (b : List β) (k : Nat)
    (h : a.length = b.length) :
    (a.zip b).rotate k = (a.rotate k).zip (b.rotate k) :=
  List.zipWith_rotate_distrib Prod.mk a b k h

/-- Rotating the vertex list rotates the cyclic edge list. -/
theorem edges_rotate (poly : List Pt) (k : Nat) :
    edges (poly.rotate k) = (edges poly).rotate k := by
  unfold edges prevList
  rw [List.length_rotate, List.rotate_rotate, Nat.add_comm k, ← List.rotate_rotate,
    ← zip_rotate _ _ k (by rw [List.length_rotate])]

/-- Rotation invariance of the ray-casting classification. -/
theorem pip_rotate (lat lon : ℚ) (poly : List Pt) (k : Nat) :
    point_in_polygon lat lon (poly.rotate k) = point_in_polygon lat lon poly := by
  rw [pip_parity, pip_parity, edges_rotate,
    (List.rotate_perm (edges poly) k).countP_eq]

theorem zip_reverse {α β : Type} :
    ∀ (a : List α) (b : List β), a.length = b.length →
      a.reverse.zip b.reverse = (a.zip b).reverse := by
  intro a
  induction a with
  | nil =>
    intro b h
    rw [List.eq_nil_of_length_eq_zero h.symm]
    rfl
  | cons x xs ih =>
    intro b h
    cases b with
    | nil => simp at h
    | cons y ys =>
      have hlen : xs.length = ys.length := by simpa using h
      simp only [List.reverse_cons, List.zip_cons_cons]
      rw [List.zip_append (by simp [hlen]), ih ys hlen]
      rfl

/-- On a nonempty reversed vertex list, the predecessor list is the
reversed successor list. -/
theorem prevList_reverse (poly : List Pt) (h : poly ≠ []) :
    prevList poly.reverse = (poly.rotate 1).reverse := by
  unfold prevList
  rw [List.length_reverse, List.rotate_reverse]
  congr 2
  have hn : 1 ≤ poly.length := List.length_pos.mpr h
  rcases Nat.lt_or_ge 1 poly.length with h2 | h2
  · rw [Nat.mod_eq_of_lt (by omega)]
    omega
  · have h1 : poly.length = 1 := by omega
    rw [h1]

/-- The crossing test is insensitive to swapping an edge's endpoints:
the straddle guard is symmetric and the two forms of the intersection
longitude agree whenever the guard holds. -/
theorem crossB_swap (lat lon : ℚ) (e : Pt × Pt) :
    crossB lat lon (Prod.swap e) = crossB lat lon e := by
  obtain ⟨⟨a, b⟩, ⟨c, d⟩⟩ := e
  show crossB lat lon ((c, d), (a, b)) = crossB lat lon ((a, b), (c, d))
  unfold crossB
  by_cases hg : (decide (a > lat) != decide (c > lat)) = true
  · have hg' : (decide (c > lat) != decide (a > lat)) = true := by
      revert hg
      cases decide (a > lat) <;> cases decide (c > lat) <;> simp
    have hac : c - a ≠ 0 := guard_denom_ne_zero hg
    have hca : a - c ≠ 0 := fun hh => hac (by linarith)
    have harith : (b - d) * (lat - c) / (a - c) + d
        = (d - b) * (lat - a) / (c - a) + b := by
      field_simp
      ring
    show ((decide (c > lat) != decide (a > lat))
        && decide (lon < (b - d) * (lat - c) / (a - c) + d))
      = ((decide (a > lat) != decide (c > lat))
        && decide (lon < (d - b) * (lat - a) / (c - a) + b))
    rw [hg, hg', harith]
  · have hgf : (decide (a > lat) != decide (c > lat)) = false := by
      revert hg
      cases decide (a > lat) != decide (c > lat) <;> simp
    have hgf' : (decide (c > lat) != decide (a > lat)) = false := by
      revert hgf
      cases decide (a > lat) <;> cases decide (c > lat) <;> simp
    show ((decide (c > lat) != decide (a > lat))
        && decide (lon < (b - d) * (lat - c) / (a - c) + d))
      = ((decide (a > lat) != decide (c > lat))
        && decide (lon < (d - b) * (lat - a) / (c - a) + b))
    rw [hgf, hgf', Bool.false_and, Bool.false_and]

/-- Reversing the vertex list permutes the edge list up to swapping each
edge's endpoints, so the crossing count is unchanged. -/
theorem edges_reverse_countP (lat lon : ℚ) (poly : List Pt) (h : poly ≠ []) :
    (edges poly.reverse).countP (crossB lat lon)
      = (edges poly).countP (crossB lat lon) := by
  have h2 : edges poly.reverse = (poly.zip (poly.rotate 1)).reverse := by
    unfold edges
    rw [prevList_reverse poly h, zip_reverse _ _ (by rw [List.length_rotate])]
  have h3 : (poly.zip (poly.rotate 1)).rotate (poly.length - 1)
      = (prevList poly).zip poly := by
    rw [zip_rotate _ _ _ (by rw [List.length_rotate]), List.rotate_rotate]
    unfold prevList
    have h1 : 1 + (poly.length - 1) = poly.length := by
      have := List.length_pos.mpr h
      omega
    rw [h1, List.rotate_length]
  have h4 : (prevList poly).zip poly = (edges poly).map Prod.swap := by
    unfold edges
    rw [List.zip_swap]
  calc (edges poly.reverse).countP (crossB lat lon)
      = ((poly.zip (poly.rotate 1)).reverse).countP (crossB lat lon) := by rw [h2]
    _ = (poly.zip (poly.rotate 1)).countP (crossB lat lon) :=
        (List.reverse_perm _).countP_eq _
    _ = ((poly.zip (poly.rotate 1)).rotate (poly.length - 1)).countP (crossB lat lon) :=
        ((List.rotate_perm _ _).countP_eq _).symm
    _ = ((edges poly).map Prod.swap).countP (crossB lat lon) := by rw [h3, h4]
    _ = (edges poly).countP (crossB lat lon ∘ Prod.swap) := List.countP_map _ _ _
    _ = (edges poly).countP (crossB lat lon) :=
        List.countP_congr (fun e _ => by
          simp only [Function.comp_apply, crossB_swap])

/-- Reversal invariance of the ray-casting classification. -/
theorem pip_reverse (lat lon : ℚ) (poly : List Pt) (h : poly ≠ []) :
    point_in_polygon lat lon poly.reverse = point_in_polygon lat lon poly := by
  rw [pip_parity, pip_parity, edges_reverse_countP lat lon poly h]

/-- C7: for every polygon with at least 3 vertices, `point_in_polygon`
classifies every point identically when the vertex list is rotated by any
amount, and identically when the vertex list is reversed. -/
theorem pip_rotation_reversal_invariant (poly : List Pt) (hlen : 3 ≤ poly.length)
    (lat lon : ℚ) (k : Nat) :
    point_in_polygon lat lon (poly.rotate k) = point_in_polygon lat lon poly
    ∧ point_in_polygon lat lon poly.reverse = point_in_polygon lat lon poly := by
  have hne : poly ≠ [] := by
    intro hnil
    rw [hnil] at hlen
    simp at hlen
  exact ⟨pip_rotate lat lon poly k, pip_reverse lat lon poly hne⟩

/-- Closed witness for `pip_rotation_reversal_invariant`: the 10°×10°
box of the spec, rotated by one and reversed, classifying (35, -95). -/
theorem pip_rotation_reversal_invariant_witness :
    point_in_polygon 35 (-95)
        (([((30 : ℚ), (-100 : ℚ)), (40, -100), (40, -90), (30, -90)]).rotate 1)
      = point_in_polygon 35 (-95)
        [((30 : ℚ), (-100 : ℚ)), (40, -100), (40, -90), (30, -90)]
    ∧ point_in_polygon 35 (-95)
        ([((30 : ℚ), (-100 : ℚ)), (40, -100), (40, -90), (30, -90)]).reverse
      = point_in_polygon 35 (-95)
        [((30 : ℚ), (-100 : ℚ)), (40, -100), (40, -90), (30, -90)] :=
  pip_rotation_reversal_invariant
    [((30 : ℚ), (-100 : ℚ)), (40, -100), (40, -90), (30, -90)] (by decide) 35 (-95) 1

/-- The bounding box `get_polygon_analytics` computes from the polygon's
vertex extrema: `min(lats), max(lats), min(lons), max(lons)`
(`min`/`max` of an empty list raise, hence `Option`). -/
def bbox (poly : List Pt) : Option (ℚ × ℚ × ℚ × ℚ) :=
  match poly with
  | [] => Option.none
  | p :: rest => some
      ((rest.map Prod.fst).foldl min p.1,
       (rest.map Prod.fst).foldl max p.1,
       (rest.map Prod.snd).foldl min p.2,
       (rest.map Prod.snd).foldl max p.2)

/-- The inclusive bounding-box test of `get_generators_in_bounds`:
`min_lat <= lat <= max_lat and min_lon <= lon <= max_lon`. -/
def in_bounds (lat lon mnLat mxLat mnLon mxLon : ℚ) : Bool :=
  decide (mnLat ≤ lat) && decide (lat ≤ mxLat)
    && decide (mnLon ≤ lon) && decide (lon ≤ mxLon)

theorem foldl_min_le (l : List ℚ) : ∀ a : ℚ, l.foldl min a ≤ a := by
  induction l with
  | nil =>
    intro a
    simp
  | cons x xs ih =>
    intro a
    calc (x :: xs).foldl min a = xs.foldl min (min a x) := rfl
    _ ≤ min a x := ih _
    _ ≤ a := min_le_left _ _

theorem foldl_min_le_mem (l : List ℚ) : ∀ (a x : ℚ), x ∈ l → l.foldl min a ≤ x := by
  induction l with
  | nil =>
    intro a x hx
    simp at hx
  | cons y ys ih =>
    intro a x hx
    rcases List.mem_cons.mp hx with rfl | h
    · calc (x :: ys).foldl min a = ys.foldl min (min a x) := rfl
      _ ≤ min a x := foldl_min_le _ _
      _ ≤ x := min_le_right _ _
    · exact ih (min a y) x h

theorem le_foldl_max (l : List ℚ) : ∀ a : ℚ, a ≤ l.foldl max a := by
  induction l with
  | nil =>
    intro a
    simp
  | cons x xs ih =>
    intro a
    calc a ≤ max a x := le_max_left _ _
    _ ≤ xs.foldl max (max a x) := ih _
    _ = (x :: xs).foldl max a := rfl

theorem le_foldl_max_mem (l : List ℚ) : ∀ (a x : ℚ), x ∈ l → x ≤ l.foldl max a := by
  induction l with
  | nil =>
    intro a x hx
    simp at hx
  | cons y ys ih =>
    intro a x hx
    rcases List.mem_cons.mp hx with rfl | h
    · calc x ≤ max a x := le_max_right _ _
      _ ≤ ys.foldl max (max a x) := le_foldl_max _ _
      _ = (x :: ys).foldl max a := rfl
    · exact ih (max a y) x h

/-- Every vertex lies inside the vertex-extrema bounding box. -/
theorem bbox_bounds {poly : List Pt} {mnLat mxLat mnLon mxLon : ℚ}
    (hb : bbox poly = some (mnLat, mxLat, mnLon, mxLon)) :
    ∀ v ∈ poly, mnLat ≤ v.1 ∧ v.1 ≤ mxLat ∧ mnLon ≤ v.2 ∧ v.2 ≤ mxLon := by
  cases poly with
  | nil => simp [bbox] at hb
  | cons p rest =>
    simp only [bbox, Option.some.injEq, Prod.mk.injEq] at hb
    obtain ⟨h1, h2, h3, h4⟩ := hb
    subst h1
    subst h2
    subst h3
    subst h4
    intro v hv
    rcases List.mem_cons.mp hv with rfl | hv'
    · exact ⟨foldl_min_le _ _, le_foldl_max _ _, foldl_min_le _ _, le_foldl_max _ _⟩
    · have hf : v.1 ∈ rest.map Prod.fst := List.mem_map_of_mem Prod.fst hv'
      have hs : v.2 ∈ rest.map Prod.snd := List.mem_map_of_mem Prod.snd hv'
      exact ⟨foldl_min_le_mem _ _ _ hf, le_foldl_max_mem _ _ _ hf,
        foldl_min_le_mem _ _ _ hs, le_foldl_max_mem _ _ _ hs⟩

/-- Both endpoints of every cyclic edge are vertices of the polygon. -/
theorem edges_mem {poly : List Pt} {e : Pt × Pt} (h : e ∈ edges poly) :
    e.1 ∈ poly ∧ e.2 ∈ poly := by
  obtain ⟨x, y⟩ := e
  unfold edges prevList at h
  have hm := List.of_mem_zip h
  exact ⟨hm.1, List.mem_rotate.mp hm.2⟩

/-- When the straddle guard holds, the intersection longitude lies
between the two endpoint longitudes. -/
theorem intersect_bounds {lat : ℚ} {vi vj : Pt}
    (hg : (decide (vi.1 > lat) != decide (vj.1 > lat)) = true) :
    min vi.2 vj.2 ≤ (vj.2 - vi.2) * (lat - vi.1) / (vj.1 - vi.1) + vi.2
    ∧ (vj.2 - vi.2) * (lat - vi.1) / (vj.1 - vi.1) + vi.2 ≤ max vi.2 vj.2 := by
  have hts : 0 ≤ (lat - vi.1) / (vj.1 - vi.1) ∧ (lat - vi.1) / (vj.1 - vi.1) ≤ 1 := by
    by_cases ha : vi.1 > lat
    · have hc : ¬ (vj.1 > lat) := by
        intro hcc
        rw [decide_eq_true ha, decide_eq_true hcc] at hg
        simp at hg
      push_neg at hc
      have hac : 0 < vi.1 - vj.1 := by linarith
      have ht' : (lat - vi.1) / (vj.1 - vi.1) = (vi.1 - lat) / (vi.1 - vj.1) := by
        rw [show lat - vi.1 = -(vi.1 - lat) by ring,
          show vj.1 - vi.1 = -(vi.1 - vj.1) by ring, neg_div_neg_eq]
      constructor
      · rw [ht']
        exact div_nonneg (by linarith) (by linarith)
      · rw [ht', div_le_one hac]
        linarith
    · have hc : vj.1 > lat := by
        by_contra hcc
        rw [decide_eq_false ha, decide_eq_false hcc] at hg
        simp at hg
      push_neg at ha
      have hca : 0 < vj.1 - vi.1 := by linarith
      constructor
      · exact div_nonneg (by linarith) (by linarith)
      · rw [div_le_one hca]
        linarith
  obtain ⟨ht0, ht1⟩ := hts
  have hexpr : (vj.2 - vi.2) * (lat - vi.1) / (vj.1 - vi.1) + vi.2
      = vi.2 + (vj.2 - vi.2) * ((lat - vi.1) / (vj.1 - vi.1)) := by
    rw [mul_div_assoc]
    ring
  rw [hexpr]
  constructor
  · rcases le_total vi.2 vj.2 with h | h
    · rw [min_eq_left h]
      nlinarith [mul_nonneg (sub_nonneg.mpr h) ht0]
    · rw [min_eq_right h]
      nlinarith [mul_nonneg (sub_nonneg.mpr h) (sub_nonneg.mpr ht1)]
  · rcases le_total vi.2 vj.2 with h | h
    · rw [max_eq_right h]
      nlinarith [mul_nonneg (sub_nonneg.mpr h) (sub_nonneg.mpr ht1)]
    · rw [max_eq_left h]
      nlinarith [mul_nonneg (sub_nonneg.mpr h) ht0]

/-- Parity bookkeeping: zipping two equal-length boolean sequences, the
number of positions where they disagree has the parity of the sum of
their true-counts. -/
theorem countP_zip_bne {α : Type} (f : α → Bool) :
    ∀ (a b : List α), a.length = b.length →
      ((a.zip b).countP fun e => f e.1 != f e.2) % 2
        = ((a.countP fun v => f v) + (b.countP fun v => f v)) % 2 := by
  intro a
  induction a with
  | nil =>
    intro b h
    rw [List.eq_nil_of_length_eq_zero h.symm]
    rfl
  | cons x xs ih =>
    intro b h
    cases b with
    | nil => simp at h
    | cons y ys =>
      have hlen : xs.length = ys.length := by simpa using h
      have hrec := ih ys hlen
      simp only [List.zip_cons_cons, List.countP_cons]
      cases hfx : f x <;> cases hfy : f y <;> simp [hfx, hfy] <;> omega

/-- Around the closed polygon, the number of edges whose endpoints
straddle a horizontal line is even. -/
theorem countP_straddle_even (lat : ℚ) (poly : List Pt) :
    ((edges poly).countP fun e => decide (e.1.1 > lat) != decide (e.2.1 > lat)) % 2 = 0 := by
  unfold edges
  have h : ((poly.zip (prevList poly)).countP
        fun e => decide (e.1.1 > lat) != decide (e.2.1 > lat)) % 2
      = ((poly.countP fun v => decide (v.1 > lat))
          + ((prevList poly).countP fun v => decide (v.1 > lat))) % 2 :=
    countP_zip_bne (fun v : Pt => decide (v.1 > lat)) poly (prevList poly)
      (by unfold prevList; rw [List.length_rotate])
  have hperm : ((prevList poly).countP fun v : Pt => decide (v.1 > lat))
      = poly.countP fun v : Pt => decide (v.1 > lat) :=
    (List.rotate_perm poly _).countP_eq _
  rw [h, hperm]
  omega

/-- A point the ray-casting test classifies as inside lies within the
polygon's vertex-extrema bounding box. -/
theorem pip_imp_in_bounds (lat lon : ℚ) (poly : List Pt) (mnLat mxLat mnLon mxLon : ℚ)
    (hb : bbox poly = some (mnLat, mxLat, mnLon, mxLon))
    (hin : point_in_polygon lat lon poly = true) :
    in_bounds lat lon mnLat mxLat mnLon mxLon = true := by
  have hbd := bbox_bounds hb
  have hlat1 : mnLat ≤ lat := by
    by_contra hc
    push_neg at hc
    have hall : ∀ e ∈ edges poly, ¬ crossB lat lon e = true := by
      intro e he
      obtain ⟨h1, h2⟩ := edges_mem he
      have hv1 : lat < e.1.1 := lt_of_lt_of_le hc (hbd e.1 h1).1
      have hv2 : lat < e.2.1 := lt_of_lt_of_le hc (hbd e.2 h2).1
      unfold crossB
      simp [hv1, hv2]
    have hz : (edges poly).countP (crossB lat lon) = 0 := List.countP_eq_zero.mpr hall
    rw [pip_parity, hz] at hin
    simp at hin
  have hlat2 : lat ≤ mxLat := by
    by_contra hc
    push_neg at hc
    have hall : ∀ e ∈ edges poly, ¬ crossB lat lon e = true := by
      intro e he
      obtain ⟨h1, h2⟩ := edges_mem he
      have hv1 : ¬ (e.1.1 > lat) := by
        have := (hbd e.1 h1).2.1
        intro hgt
        linarith
      have hv2 : ¬ (e.2.1 > lat) := by
        have := (hbd e.2 h2).2.1
        intro hgt
        linarith
      unfold crossB
      simp [hv1, hv2]
    have hz : (edges poly).countP (crossB lat lon) = 0 := List.countP_eq_zero.mpr hall
    rw [pip_parity, hz] at hin
    simp at hin
  have hlon2 : lon ≤ mxLon := by
    by_contra hc
    push_neg at hc
    have hall : ∀ e ∈ edges poly, ¬ crossB lat lon e = true := by
      intro e he
      obtain ⟨h1, h2⟩ := edges_mem he
      intro hcross
      rw [crossB, Bool.and_eq_true] at hcross
      obtain ⟨hg, hcond⟩ := hcross
      have hup := (intersect_bounds hg).2
      have hm1 : e.1.2 ≤ mxLon := (hbd e.1 h1).2.2.2
      have hm2 : e.2.2 ≤ mxLon := (hbd e.2 h2).2.2.2
      have hmax : max e.1.2 e.2.2 ≤ mxLon := max_le hm1 hm2
      have hlt : lon < (e.2.2 - e.1.2) * (lat - e.1.1) / (e.2.1 - e.1.1) + e.1.2 :=
        of_decide_eq_true hcond
      linarith
    have hz : (edges poly).countP (crossB lat lon) = 0 := List.countP_eq_zero.mpr hall
    rw [pip_parity, hz] at hin
    simp at hin
  have hlon1 : mnLon ≤ lon := by
    by_contra hc
    push_neg at hc
    have hcong : (edges poly).countP (crossB lat lon)
        = (edges poly).countP fun e => decide (e.1.1 > lat) != decide (e.2.1 > lat) := by
      apply List.countP_congr
      intro e he
      obtain ⟨h1, h2⟩ := edges_mem he
      constructor
      · intro hcr
        exact ((Bool.and_eq_true _ _).mp ((crossB.eq_def lat lon e) ▸ hcr)).1
      · intro hg
        have hlow := (intersect_bounds hg).1
        have hm1 : mnLon ≤ e.1.2 := (hbd e.1 h1).2.2.1
        have hm2 : mnLon ≤ e.2.2 := (hbd e.2 h2).2.2.1
        have hmin : mnLon ≤ min e.1.2 e.2.2 := le_min hm1 hm2
        rw [crossB, hg, Bool.true_and]
        exact decide_eq_true (by linarith)
    have heven := countP_straddle_even lat poly
    rw [pip_parity, hcong] at hin
    have := of_decide_eq_true hin
    omega
  unfold in_bounds
  rw [decide_eq_true hlat1, decide_eq_true hlat2, decide_eq_true hlon1, decide_eq_true hlon2]
  rfl

/-- C6: an inside-classified point always lies in the vertex-extrema
bounding box, so prefiltering candidates by the (inclusive) bounding box
before the exact ray-casting test yields the same final membership set as
the exact test alone. -/
theorem bbox_prefilter_complete (poly : List Pt) (mnLat mxLat mnLon mxLon : ℚ)
    (hb : bbox poly = some (mnLat, mxLat, mnLon, mxLon)) :
    (∀ lat lon : ℚ, point_in_polygon lat lon poly = true →
        in_bounds lat lon mnLat mxLat mnLon mxLon = true)
    ∧ ∀ cands : List Pt,
        (cands.filter fun g => in_bounds g.1 g.2 mnLat mxLat mnLon mxLon).filter
            (fun g => point_in_polygon g.1 g.2 poly)
          = cands.filter fun g => point_in_polygon g.1 g.2 poly := by
  refine ⟨fun lat lon => pip_imp_in_bounds lat lon poly mnLat mxLat mnLon mxLon hb, ?_⟩
  intro cands
  rw [List.filter_filter]
  apply List.filter_congr
  intro g hg
  cases hpip : point_in_polygon g.1 g.2 poly with
  | true =>
    rw [pip_imp_in_bounds g.1 g.2 poly mnLat mxLat mnLon mxLon hb hpip]
    rfl
  | false => simp

/-- Closed witness for `bbox_prefilter_complete`: the 10°×10° box of the
spec with its extrema bounding box. -/
theorem bbox_prefilter_complete_witness :
    (∀ lat lon : ℚ, point_in_polygon lat lon
          [((30 : ℚ), (-100 : ℚ)), (40, -100), (40, -90), (30, -90)] = true →
        in_bounds lat lon 30 40 (-100) (-90) = true)
    ∧ ∀ cands : List Pt,
        (cands.filter fun g => in_bounds g.1 g.2 30 40 (-100) (-90)).filter
            (fun g => point_in_polygon g.1 g.2
              [((30 : ℚ), (-100 : ℚ)), (40, -100), (40, -90), (30, -90)])
          = cands.filter fun g => point_in_polygon g.1 g.2
              [((30 : ℚ), (-100 : ℚ)), (40, -100), (40, -90), (30, -90)] :=
  bbox_prefilter_complete
    [((30 : ℚ), (-100 : ℚ)), (40, -100), (40, -90), (30, -90)] 30 40 (-100) (-90) (by decide)

end Geo
